import Mathlib

/- Shallow embedding of pyro/distributions/diag_normal_mixture_shared_cov.py
   (class MixtureOfDiagNormalsSharedCovariance and the custom autograd
   function _MixDiagNormalSharedCovarianceSample).

   Tensors are total functions over Fin-indexed axes.  The leading sample
   axes are flattened into a single axis of size L and the batch axes into a
   single axis of size B; the component axis has size K + 1 (the distribution
   always has at least one component) and the event axis has size D.  Exact
   real arithmetic stands for the float arithmetic of the source. -/

namespace MixSharedCov

noncomputable section

/-- Gauss error function, the mathematical function computed by torch.erf in
the backward pass of the source. -/
def erf (x : ℝ) : ℝ := 2 / Real.sqrt Real.pi * ∫ t in (0:ℝ)..x, Real.exp (-(t ^ 2))

theorem erf_zero : erf 0 = 0 := by simp [erf]

theorem erf_pos {x : ℝ} (hx : 0 < x) : 0 < erf x := by
  have hc : Continuous fun t : ℝ => Real.exp (-(t ^ 2)) := by continuity
  have hint : IntervalIntegrable (fun t : ℝ => Real.exp (-(t ^ 2)))
      MeasureTheory.volume 0 x := hc.intervalIntegrable 0 x
  have hpos : 0 < ∫ t in (0:ℝ)..x, Real.exp (-(t ^ 2)) :=
    intervalIntegral.intervalIntegral_pos_of_pos hint (fun t => Real.exp_pos _) hx
  exact mul_pos (div_pos two_pos (Real.sqrt_pos.mpr Real.pi_pos)) hpos

/-- Mixture weights; Categorical(logits=logits).probs is the softmax of the
logits along the component axis (source line 44-45). -/
def probs {B K : ℕ} (logits : Fin B → Fin (K+1) → ℝ) (b : Fin B) (k : Fin (K+1)) : ℝ :=
  Real.exp (logits b k) / ∑ j, Real.exp (logits b j)

theorem probs_pos {B K : ℕ} (logits : Fin B → Fin (K+1) → ℝ) (b : Fin B) (k : Fin (K+1)) :
    0 < probs logits b k := by
  refine div_pos (Real.exp_pos _) ?_
  exact Finset.sum_pos (fun j _ => Real.exp_pos _) Finset.univ_nonempty

/-- log_prob, source line 50: epsilon = (value.unsqueeze(-2) - locs) / scale. -/
def lpEps {L B K D : ℕ} (locs : Fin B → Fin (K+1) → Fin D → ℝ) (scale : Fin B → Fin D → ℝ)
    (value : Fin L → Fin B → Fin D → ℝ) (l : Fin L) (b : Fin B) (k : Fin (K+1)) (d : Fin D) : ℝ :=
  (value l b d - locs b k d) / scale b d

/-- log_prob, source line 51: eps_sqr = 0.5 * epsilon.pow(2).sum(-1). -/
def epsSqr {L B K D : ℕ} (locs : Fin B → Fin (K+1) → Fin D → ℝ) (scale : Fin B → Fin D → ℝ)
    (value : Fin L → Fin B → Fin D → ℝ) (l : Fin L) (b : Fin B) (k : Fin (K+1)) : ℝ :=
  0.5 * ∑ d, lpEps locs scale value l b k d ^ 2

/-- log_prob, source line 52: eps_sqr_min = torch.min(eps_sqr, -1)[0]. -/
def epsSqrMin {L B K D : ℕ} (locs : Fin B → Fin (K+1) → Fin D → ℝ) (scale : Fin B → Fin D → ℝ)
    (value : Fin L → Fin B → Fin D → ℝ) (l : Fin L) (b : Fin B) : ℝ :=
  Finset.univ.inf' Finset.univ_nonempty fun k => epsSqr locs scale value l b k

/-- log_prob result, source lines 53-58, per leading index l and batch index b. -/
def logProb {L B K D : ℕ} (locs : Fin B → Fin (K+1) → Fin D → ℝ) (scale : Fin B → Fin D → ℝ)
    (logits : Fin B → Fin (K+1) → ℝ) (value : Fin L → Fin B → Fin D → ℝ)
    (l : Fin L) (b : Fin B) : ℝ :=
  Real.log (∑ k, probs logits b k *
      Real.exp (-(epsSqr locs scale value l b k) + epsSqrMin locs scale value l b))
    - 0.5 * Real.log (2 * Real.pi) * D
    - (∑ d, Real.log (scale b d))
    - epsSqrMin locs scale value l b

/-- The log_prob formula exactly as the spec states it in section 4.2:
result = log(sum_k weights*exp(m - eps_sqr)) - 0.5 D log(2 pi) - sum log scale - m. -/
def logProbSpec {L B K D : ℕ} (locs : Fin B → Fin (K+1) → Fin D → ℝ) (scale : Fin B → Fin D → ℝ)
    (logits : Fin B → Fin (K+1) → ℝ) (value : Fin L → Fin B → Fin D → ℝ)
    (l : Fin L) (b : Fin B) : ℝ :=
  Real.log (∑ k, probs logits b k *
      Real.exp (epsSqrMin locs scale value l b - epsSqr locs scale value l b k))
    - 0.5 * Real.log (2 * Real.pi) * D
    - (∑ d, Real.log (scale b d))
    - epsSqrMin locs scale value l b

/-- Closed-form log-density of a diagonal Gaussian with mean loc and scale
vector scale, the reference value for the K = 1 part of claim C5. -/
def gaussLogPdf {L B D : ℕ} (loc : Fin B → Fin D → ℝ) (scale : Fin B → Fin D → ℝ)
    (value : Fin L → Fin B → Fin D → ℝ) (l : Fin L) (b : Fin B) : ℝ :=
  -(0.5 * ∑ d, ((value l b d - loc b d) / scale b d) ^ 2)
    - 0.5 * Real.log (2 * Real.pi) * D
    - ∑ d, Real.log (scale b d)

/-- Concrete scenario of claim C5: K = 2 components, D = 1, locs [[-1],[1]]. -/
def c5locs : Fin 1 → Fin 2 → Fin 1 → ℝ := fun _ k _ => if k = 0 then -1 else 1

def c5scale : Fin 1 → Fin 1 → ℝ := fun _ _ => 1

def c5logits : Fin 1 → Fin 2 → ℝ := fun _ _ => 0

def c5value : Fin 1 → Fin 1 → Fin 1 → ℝ := fun _ _ _ => 0

theorem logProb_eq_spec {L B K D : ℕ} (locs : Fin B → Fin (K+1) → Fin D → ℝ)
    (scale : Fin B → Fin D → ℝ) (logits : Fin B → Fin (K+1) → ℝ)
    (value : Fin L → Fin B → Fin D → ℝ) (l : Fin L) (b : Fin B) :
    logProb locs scale logits value l b = logProbSpec locs scale logits value l b := by
  unfold logProb logProbSpec
  rw [show (∑ k, probs logits b k *
      Real.exp (-(epsSqr locs scale value l b k) + epsSqrMin locs scale value l b)) =
      ∑ k, probs logits b k *
      Real.exp (epsSqrMin locs scale value l b - epsSqr locs scale value l b k) from
    Finset.sum_congr rfl fun k _ => by rw [neg_add_eq_sub]]

theorem logProb_K1 {L B D : ℕ} (locs : Fin B → Fin 1 → Fin D → ℝ)
    (scale : Fin B → Fin D → ℝ) (logits : Fin B → Fin 1 → ℝ)
    (value : Fin L → Fin B → Fin D → ℝ) (l : Fin L) (b : Fin B) :
    @logProb L B 0 D locs scale logits value l b
      = gaussLogPdf (fun b2 d => locs b2 0 d) scale value l b := by
  have hp : probs logits b 0 = 1 := by
    unfold probs
    rw [Fin.sum_univ_one]
    exact div_self (Real.exp_ne_zero _)
  have hmin : epsSqrMin locs scale value l b = epsSqr locs scale value l b 0 := by
    unfold epsSqrMin
    simp [Finset.univ_unique]
  unfold logProb gaussLogPdf
  rw [Fin.sum_univ_one, hmin, hp, neg_add_cancel, Real.exp_zero, mul_one, Real.log_one]
  unfold epsSqr lpEps
  ring

theorem logProb_concrete :
    logProb c5locs c5scale c5logits c5value 0 0
      = Real.log (Real.exp (-(1/2)) / Real.sqrt (2 * Real.pi)) := by
  have h2pi : (0:ℝ) < 2 * Real.pi := by positivity
  have hp : ∀ k, probs c5logits 0 k = 1/2 := by
    intro k
    unfold probs c5logits
    rw [Fin.sum_univ_two]
    norm_num
  have he : ∀ k, epsSqr c5locs c5scale c5value 0 0 k = 1/2 := by
    intro k
    unfold epsSqr lpEps c5locs c5scale c5value
    fin_cases k <;> norm_num [Fin.sum_univ_one]
  have hmin : epsSqrMin c5locs c5scale c5value 0 0 = 1/2 := by
    unfold epsSqrMin
    refine le_antisymm ?_ ?_
    · exact le_trans (Finset.inf'_le _ (Finset.mem_univ 0)) (le_of_eq (he 0))
    · exact Finset.le_inf' _ _ fun k _ => le_of_eq (he k).symm
  unfold logProb
  rw [Fin.sum_univ_two, hp 0, hp 1, hmin, he 0, he 1,
      Real.log_div (Real.exp_ne_zero _) (ne_of_gt (Real.sqrt_pos.mpr h2pi)),
      Real.log_exp, Real.log_sqrt (le_of_lt h2pi)]
  norm_num [c5scale, Fin.sum_univ_one]
  ring

/-- Claim C5: the log_prob of the source equals the spec's stabilized
log-sum-exp formula for every instance and value; for a single component it
equals the closed-form diagonal-Gaussian log-density; and on the concrete
scenario (K = 2, D = 1, locs [[-1],[1]], unit scale, equal logits) the value
at 0 is log(exp(-1/2)/sqrt(2 pi)). -/
theorem C5_log_prob :
    (∀ (L B K D : ℕ) (locs : Fin B → Fin (K+1) → Fin D → ℝ) (scale : Fin B → Fin D → ℝ)
        (logits : Fin B → Fin (K+1) → ℝ) (value : Fin L → Fin B → Fin D → ℝ)
        (l : Fin L) (b : Fin B),
        logProb locs scale logits value l b = logProbSpec locs scale logits value l b) ∧
    (∀ (L B D : ℕ) (locs : Fin B → Fin 1 → Fin D → ℝ) (scale : Fin B → Fin D → ℝ)
        (logits : Fin B → Fin 1 → ℝ) (value : Fin L → Fin B → Fin D → ℝ)
        (l : Fin L) (b : Fin B),
        @logProb L B 0 D locs scale logits value l b
          = gaussLogPdf (fun b2 d => locs b2 0 d) scale value l b) ∧
    logProb c5locs c5scale c5logits c5value 0 0
      = Real.log (Real.exp (-(1/2)) / Real.sqrt (2 * Real.pi)) :=
  ⟨fun _ _ _ _ locs scale logits value l b => logProb_eq_spec locs scale logits value l b,
   fun _ _ _ locs scale logits value l b => logProb_K1 locs scale logits value l b,
   logProb_concrete⟩

/-- Claim C6: log_prob is overflow-resistant.  Every exponential inside
log_prob has nonpositive argument (each exp term is at most 1), and the
argument of the logarithm is strictly positive, for every instance and every
value, however large the squared normalized distances are. -/
theorem C6_log_prob_no_overflow :
    ∀ (L B K D : ℕ) (locs : Fin B → Fin (K+1) → Fin D → ℝ) (scale : Fin B → Fin D → ℝ)
      (logits : Fin B → Fin (K+1) → ℝ) (value : Fin L → Fin B → Fin D → ℝ)
      (l : Fin L) (b : Fin B),
      (∀ k, epsSqrMin locs scale value l b - epsSqr locs scale value l b k ≤ 0) ∧
      (∀ k, Real.exp (-(epsSqr locs scale value l b k) + epsSqrMin locs scale value l b) ≤ 1) ∧
      0 < ∑ k, probs logits b k *
        Real.exp (-(epsSqr locs scale value l b k) + epsSqrMin locs scale value l b) := by
  intro L B K D locs scale logits value l b
  have harg : ∀ k, epsSqrMin locs scale value l b - epsSqr locs scale value l b k ≤ 0 := by
    intro k
    have h := Finset.inf'_le (fun k2 => epsSqr locs scale value l b k2) (Finset.mem_univ k)
    exact sub_nonpos.mpr h
  refine ⟨harg, fun k => ?_, ?_⟩
  · refine Real.exp_le_one_iff.mpr ?_
    rw [neg_add_eq_sub]
    exact harg k
  · exact Finset.sum_pos (fun k _ => mul_pos (probs_pos _ _ _) (Real.exp_pos _))
      Finset.univ_nonempty

/-- Negative-index size lookup on a shape: s.size(-k).  none models the
IndexError a size query raises on a tensor of too small a rank. -/
def sizeFromEnd (s : List ℕ) (k : ℕ) : Option ℕ :=
  if k ≤ s.length then s[s.length - k]? else none

/-- Constructor shape validation, source lines 27-39: the conjunction of the
asserts of MixtureOfDiagNormalsSharedCovariance.init as predicates on the
shapes of locs, scale and logits.  true means construction succeeds, false
means an assert raises. -/
def initValid (ls ss gs : List ℕ) : Bool :=
  (decide (2 < ls.length) || decide (ls.length = 2)) &&
  (if 2 < ls.length then
    decide (1 < ss.length) && decide (1 < gs.length) &&
      decide (sizeFromEnd gs 1 = sizeFromEnd ls 2)
  else
    decide (ss.length = 1) && decide (gs.length = 1) && decide (gs.head? = ls.head?))

/-- Batch shape produced by the constructor, source lines 34 and 39. -/
def batchShapeOf (ls : List ℕ) : List ℕ :=
  if 2 < ls.length then ls.dropLast.dropLast else []

/-- Event dimension D = locs.size(-1), source line 43; event shape is (D,). -/
def eventDim (ls : List ℕ) : Option ℕ := sizeFromEnd ls 1

/-- Shape constraints exactly as claim C8 states them: batch mode is
rank(locs) > 2; non-batch mode requires rank-1 scale and logits with
logits.size = locs.size(-2); batch mode requires rank(scale) > 1,
rank(logits) > 1 and logits.size(-1) = locs.size(-2). -/
def specValid (ls ss gs : List ℕ) : Prop :=
  if 2 < ls.length then
    1 < ss.length ∧ 1 < gs.length ∧ sizeFromEnd gs 1 = sizeFromEnd ls 2
  else
    ss.length = 1 ∧ gs.length = 1 ∧ sizeFromEnd gs 1 = sizeFromEnd ls 2

theorem initValid_iff (ls ss gs : List ℕ) : initValid ls ss gs = true ↔ specValid ls ss gs := by
  by_cases h : 2 < ls.length
  · simp [initValid, specValid, h, and_assoc]
  · rcases ls with _ | ⟨x, _ | ⟨y, _ | ⟨z, t⟩⟩⟩
    · rcases gs with _ | ⟨a, _ | ⟨b, u⟩⟩
      all_goals simp [initValid, specValid, sizeFromEnd]
    · rcases gs with _ | ⟨a, _ | ⟨b, u⟩⟩
      all_goals simp [initValid, specValid, sizeFromEnd]
    · rcases gs with _ | ⟨a, _ | ⟨b, u⟩⟩
      all_goals simp [initValid, specValid, sizeFromEnd]
    · exact absurd (by simp only [List.length_cons]; omega) h

theorem batchShapeOf_eq_take (ls : List ℕ) : batchShapeOf ls = ls.take (ls.length - 2) := by
  unfold batchShapeOf
  by_cases h : 2 < ls.length
  · rw [if_pos h, List.dropLast_eq_take, List.dropLast_eq_take, List.take_take,
        List.length_take]
    congr 1
    omega
  · rw [if_neg h, show ls.length - 2 = 0 by omega, List.take_zero]

/-- torch.gather along dim -2 for a rank-2 input (non-batch mode with one
sample axis, source line 75): out[l, i] = locs[idx[l, i], i]. -/
def gatherNB {L K D : ℕ} (locs : Fin (K+1) → Fin D → ℝ)
    (idx : Fin L → Fin D → Fin (K+1)) : Fin L → Fin D → ℝ :=
  fun l i => locs (idx l i) i

/-- which.unsqueeze(-1).expand((L, D)) in non-batch mode (source lines 71-74):
the drawn component index copied along the event axis. -/
def expandNB {L K D : ℕ} (which : Fin L → Fin (K+1)) : Fin L → Fin D → Fin (K+1) :=
  fun l _ => which l

/-- Forward sample, non-batch mode with one sample axis (source lines 69-78
for rank(locs) = 2 and rank(which) = 1): z = gathered loc + scale * white. -/
def fwdNB {L K D : ℕ} (locs : Fin (K+1) → Fin D → ℝ) (scale : Fin D → ℝ)
    (which : Fin L → Fin (K+1)) (white : Fin L → Fin D → ℝ) : Fin L → Fin D → ℝ :=
  fun l i => gatherNB locs (expandNB which) l i + scale i * white l i

/-- torch.gather along dim -2 = 1 for a rank-3 input and a rank-3 index whose
middle axis is a singleton (batch mode, empty sample shape):
out[b, j, i] = locs[b, idx[b, j, i], i]. -/
def gatherB0 {B K D : ℕ} (locs : Fin B → Fin (K+1) → Fin D → ℝ)
    (idx : Fin B → Fin 1 → Fin D → Fin (K+1)) : Fin B → Fin 1 → Fin D → ℝ :=
  fun b j i => locs b (idx b j i) i

/-- Forward sample, batch mode with empty sample shape: which gets two
trailing singleton axes, is expanded along the event axis, gathered, and the
singleton component axis squeezed away (source lines 71-76). -/
def fwdB0 {B K D : ℕ} (locs : Fin B → Fin (K+1) → Fin D → ℝ) (scale : Fin B → Fin D → ℝ)
    (which : Fin B → Fin (K+1)) (white : Fin B → Fin D → ℝ) : Fin B → Fin D → ℝ :=
  fun b i => gatherB0 locs (fun b2 _ _ => which b2) b 0 i + scale b i * white b i

/-- torch.gather along dim -2 = 1 for a rank-3 input (B, K+1, D) and a rank-3
index (L, B, D) (batch mode, one sample axis).  Per the torch.gather contract
out[a, j, i] = input[a, index[a, j, i], i], so the first axis of locs (the
batch axis) is indexed by the first axis of the index (the sample axis) --
torch requires index.size(d) <= input.size(d) for every d other than the
gather dim, here L <= B. -/
def gatherBS {L B K D : ℕ} (h : L ≤ B) (locs : Fin B → Fin (K+1) → Fin D → ℝ)
    (idx : Fin L → Fin B → Fin D → Fin (K+1)) : Fin L → Fin B → Fin D → ℝ :=
  fun l b i => locs (Fin.castLE h l) (idx l b i) i

/-- Forward sample, batch mode with one sample axis (source lines 69-78 for
rank(locs) = 3 and rank(which) = 2). -/
def fwdBS {L B K D : ℕ} (h : L ≤ B) (locs : Fin B → Fin (K+1) → Fin D → ℝ)
    (scale : Fin B → Fin D → ℝ) (which : Fin L → Fin B → Fin (K+1))
    (white : Fin L → Fin B → Fin D → ℝ) : Fin L → Fin B → Fin D → ℝ :=
  fun l b i => gatherBS h locs (fun l2 b2 _ => which l2 b2) l b i + scale b i * white l b i

/-- The batch-plus-sample forward with torch.gather's size check made
explicit: none models the RuntimeError torch.gather raises when
index.size(0) = L exceeds input.size(0) = B. -/
def fwdBSChecked {L B K D : ℕ} (locs : Fin B → Fin (K+1) → Fin D → ℝ)
    (scale : Fin B → Fin D → ℝ) (which : Fin L → Fin B → Fin (K+1))
    (white : Fin L → Fin B → Fin D → ℝ) : Option (Fin L → Fin B → Fin D → ℝ) :=
  if h : L ≤ B then some (fwdBS h locs scale which white) else none

/-- Saved autograd context, source line 77:
ctx.save_for_backward(z, scale, locs, logits, pis). -/
structure Saved (L B K D : ℕ) where
  z : Fin L → Fin B → Fin D → ℝ
  scale : Fin B → Fin D → ℝ
  locs : Fin B → Fin (K+1) → Fin D → ℝ
  logits : Fin B → Fin (K+1) → ℝ
  pis : Fin B → Fin (K+1) → ℝ

/-- Forward pass returning the sample together with the retained context,
batch mode with one sample axis. -/
def fwdBSFull {L B K D : ℕ} (h : L ≤ B) (locs : Fin B → Fin (K+1) → Fin D → ℝ)
    (scale : Fin B → Fin D → ℝ) (logits : Fin B → Fin (K+1) → ℝ)
    (pis : Fin B → Fin (K+1) → ℝ) (which : Fin L → Fin B → Fin (K+1))
    (white : Fin L → Fin B → Fin D → ℝ) :
    (Fin L → Fin B → Fin D → ℝ) × Saved L B K D :=
  (fwdBS h locs scale which white, ⟨fwdBS h locs scale which white, scale, locs, logits, pis⟩)

/-- Concrete inputs refuting claim C7: two batch elements whose mean rows
are the batch index, a two-element sample axis, which always 0, zero noise. -/
def c7locs : Fin 2 → Fin 1 → Fin 1 → ℝ := fun b _ _ => ((b : ℕ) : ℝ)

def c7scale : Fin 2 → Fin 1 → ℝ := fun _ _ => 1

def c7which : Fin 2 → Fin 2 → Fin 1 := fun _ _ => 0

def c7white : Fin 2 → Fin 2 → Fin 1 → ℝ := fun _ _ _ => 0

/-- Claim C7 is false as stated: in batch mode with a nonempty sample shape
the gather indexes the batch axis of locs with the sample index, so at sample
index 0 and batch index 1 the code returns locs[0, which, :] instead of the
claimed locs[1, which, :] (+ scale * white). -/
theorem C7_counterexample :
    fwdBS (le_refl 2) c7locs c7scale c7which c7white 0 1 0
      ≠ c7locs 1 (c7which 0 1) 0 + c7scale 1 0 * c7white 0 1 0 := by
  simp only [fwdBS, gatherBS, c7locs, c7scale, c7white, Fin.coe_castLE]
  norm_num

/-- Claim C7, amended: the forward sample is loc + scale * white with loc
gathered from locs by the expanded index, which yields the claimed
locs[b, which[l, b], :] in non-batch mode and in batch mode with an empty
sample shape; but in batch mode with a sample axis the gather indexes the
batch axis of locs with the sample index (locs[l, which[l, b], :], defined
only when L <= B).  The retained context is exactly
(z, scale, locs, logits, weights). -/
theorem C7_forward_amended :
    (∀ (L K D : ℕ) (locs : Fin (K+1) → Fin D → ℝ) (scale : Fin D → ℝ)
        (which : Fin L → Fin (K+1)) (white : Fin L → Fin D → ℝ) (l : Fin L) (i : Fin D),
        fwdNB locs scale which white l i = locs (which l) i + scale i * white l i) ∧
    (∀ (B K D : ℕ) (locs : Fin B → Fin (K+1) → Fin D → ℝ) (scale : Fin B → Fin D → ℝ)
        (which : Fin B → Fin (K+1)) (white : Fin B → Fin D → ℝ) (b : Fin B) (i : Fin D),
        fwdB0 locs scale which white b i = locs b (which b) i + scale b i * white b i) ∧
    (∀ (L B K D : ℕ) (h : L ≤ B) (locs : Fin B → Fin (K+1) → Fin D → ℝ)
        (scale : Fin B → Fin D → ℝ) (which : Fin L → Fin B → Fin (K+1))
        (white : Fin L → Fin B → Fin D → ℝ) (l : Fin L) (b : Fin B) (i : Fin D),
        fwdBS h locs scale which white l b i
          = locs (Fin.castLE h l) (which l b) i + scale b i * white l b i) ∧
    (∀ (L B K D : ℕ) (h : L ≤ B) (locs : Fin B → Fin (K+1) → Fin D → ℝ)
        (scale : Fin B → Fin D → ℝ) (logits : Fin B → Fin (K+1) → ℝ)
        (pis : Fin B → Fin (K+1) → ℝ) (which : Fin L → Fin B → Fin (K+1))
        (white : Fin L → Fin B → Fin D → ℝ),
        (fwdBSFull h locs scale logits pis which white).2
          = ⟨(fwdBSFull h locs scale logits pis which white).1, scale, locs, logits, pis⟩) :=
  ⟨fun _ _ _ _ _ _ _ _ _ => rfl, fun _ _ _ _ _ _ _ _ _ => rfl,
   fun _ _ _ _ _ _ _ _ _ _ _ _ => rfl, fun _ _ _ _ _ _ _ _ _ _ _ => rfl⟩

/-- Witness for claim C7's amended theorem at a concrete instance. -/
theorem C7_forward_amended_witness :
    (2:ℕ) ≤ 2 ∧ fwdBS (le_refl 2) c7locs c7scale c7which c7white 0 0 0
      = c7locs (Fin.castLE (le_refl 2) 0) (c7which 0 0) 0 + c7scale 0 0 * c7white 0 0 0 :=
  ⟨le_refl 2,
   C7_forward_amended.2.2.1 2 2 0 1 (le_refl 2) c7locs c7scale c7which c7white 0 0 0⟩

/-- Concrete inputs for claim C8's counterexample: a validated batch-mode
instance (batch 2, one component, event dim 1) and a sample axis of size 3. -/
def c8locs : Fin 2 → Fin 1 → Fin 1 → ℝ := fun _ _ _ => 0

def c8scale : Fin 2 → Fin 1 → ℝ := fun _ _ => 1

def c8which : Fin 3 → Fin 2 → Fin 1 := fun _ _ => 0

def c8white : Fin 3 → Fin 2 → Fin 1 → ℝ := fun _ _ _ => 0

/-- Claim C8 is false as stated: the shapes (2,1,1), (2,1), (2,1) pass the
constructor's validation, yet forward sampling with a sample axis of size 3
raises a size error inside torch.gather (modelled by none), so a shape error
can be raised after construction. -/
theorem C8_counterexample :
    initValid [2, 1, 1] [2, 1] [2, 1] = true ∧
    fwdBSChecked c8locs c8scale c8which c8white = none := by
  constructor
  · decide
  · unfold fwdBSChecked
    norm_num

/-- Claim C8, amended: the constructor raises iff the stated rank/size
constraints are violated, with batch shape locs.shape[:-2] (empty in
non-batch mode); log_prob and backward are total, but forward sampling in
batch mode with a nonempty sample shape raises iff the leading sample size
exceeds the leading batch size (torch.gather's size constraint). -/
theorem C8_shape_check :
    (∀ ls ss gs, initValid ls ss gs = true ↔ specValid ls ss gs) ∧
    (∀ ls, batchShapeOf ls = ls.take (ls.length - 2)) ∧
    (∀ (L B K D : ℕ) (locs : Fin B → Fin (K+1) → Fin D → ℝ) (scale : Fin B → Fin D → ℝ)
        (which : Fin L → Fin B → Fin (K+1)) (white : Fin L → Fin B → Fin D → ℝ),
        (fwdBSChecked locs scale which white).isSome ↔ L ≤ B) := by
  refine ⟨initValid_iff, batchShapeOf_eq_take, ?_⟩
  intro L B K D locs scale which white
  unfold fwdBSChecked
  by_cases h : L ≤ B <;> simp [h]

/-- Claim C10: the constructor never compares the scale vector's length with
the event dimension; any rank-1 scale passes with a rank-2 locs and matching
logits, and the event dimension comes from locs alone. -/
theorem C10_no_scale_length_check :
    ∀ (k d s : ℕ), 0 < s →
      initValid [k, d] [s] [k] = true ∧ eventDim [k, d] = some d ∧
        batchShapeOf [k, d] = [] := by
  intro k d s _
  refine ⟨?_, ?_, ?_⟩ <;> simp [initValid, eventDim, sizeFromEnd, batchShapeOf]

/-- Witness for claim C10 at a concrete instance where the scale length 5
differs from the event dimension 3. -/
theorem C10_no_scale_length_check_witness :
    0 < 5 ∧ (initValid [2, 3] [5] [2] = true ∧ eventDim [2, 3] = some 3 ∧
      batchShapeOf [2, 3] = []) :=
  ⟨by decide, C10_no_scale_length_check 2 3 5 (by decide)⟩

/- Backward pass, source lines 82-128.  The saved tensors of the context are
   passed as separate arguments: z, scale, locs, pis (the softmax weights);
   g is the upstream gradient grad_output.  logits is saved but never read
   by the backward computation. -/

/-- z_tilde = z / scale, source line 89. -/
def zTilde {L B D : ℕ} (z : Fin L → Fin B → Fin D → ℝ) (scale : Fin B → Fin D → ℝ)
    (l : Fin L) (b : Fin B) (i : Fin D) : ℝ :=
  z l b i / scale b i

/-- locs_tilde = locs / scale.unsqueeze(-2), source line 90. -/
def locsTilde {B K D : ℕ} (locs : Fin B → Fin (K+1) → Fin D → ℝ)
    (scale : Fin B → Fin D → ℝ) (b : Fin B) (j : Fin (K+1)) (i : Fin D) : ℝ :=
  locs b j i / scale b i

/-- mu_ab before normalization, source line 91:
mu_ab[b,k,j,:] = locs_tilde[b,k,:] - locs_tilde[b,j,:]. -/
def muAbRaw {B K D : ℕ} (locs : Fin B → Fin (K+1) → Fin D → ℝ)
    (scale : Fin B → Fin D → ℝ) (b : Fin B) (k j : Fin (K+1)) (i : Fin D) : ℝ :=
  locsTilde locs scale b k i - locsTilde locs scale b j i

/-- mu_ab_norm, source line 92. -/
def muAbNorm {B K D : ℕ} (locs : Fin B → Fin (K+1) → Fin D → ℝ)
    (scale : Fin B → Fin D → ℝ) (b : Fin B) (k j : Fin (K+1)) : ℝ :=
  Real.sqrt (∑ i, muAbRaw locs scale b k j i ^ 2)

/-- mu_ab after the in-place normalization (source line 93) and the zeroing
of the diagonal (source lines 94-95): off the diagonal the elementwise
quotient by the pair norm, on the diagonal 0.  Note that for an off-diagonal
pair of coincident mean rows the source divides 0 by 0, which is NaN in the
IEEE arithmetic the code runs under; real division in this embedding returns
the junk value 0 there instead (see claim C3). -/
def muAb {B K D : ℕ} (locs : Fin B → Fin (K+1) → Fin D → ℝ)
    (scale : Fin B → Fin D → ℝ) (b : Fin B) (k j : Fin (K+1)) (i : Fin D) : ℝ :=
  if k = j then 0 else muAbRaw locs scale b k j i / muAbNorm locs scale b k j

/-- mu_ll_ab, source line 97: the broadcast aligns locs_tilde's component
axis with the first pair axis, so
mu_ll_ab[b,k,j] = <locs_tilde[b,k,:], mu_ab[b,k,j,:]>. -/
def muLlAb {B K D : ℕ} (locs : Fin B → Fin (K+1) → Fin D → ℝ)
    (scale : Fin B → Fin D → ℝ) (b : Fin B) (k j : Fin (K+1)) : ℝ :=
  ∑ i, locsTilde locs scale b k i * muAb locs scale b k j i

/-- mu_ll_ba, source line 113: transpose of the two pair axes. -/
def muLlBa {B K D : ℕ} (locs : Fin B → Fin (K+1) → Fin D → ℝ)
    (scale : Fin B → Fin D → ℝ) (b : Fin B) (k j : Fin (K+1)) : ℝ :=
  muLlAb locs scale b j k

/-- z_ll_ab, source line 98. -/
def zLlAb {L B K D : ℕ} (z : Fin L → Fin B → Fin D → ℝ) (scale : Fin B → Fin D → ℝ)
    (locs : Fin B → Fin (K+1) → Fin D → ℝ) (l : Fin L) (b : Fin B) (k j : Fin (K+1)) : ℝ :=
  ∑ i, zTilde z scale l b i * muAb locs scale b k j i

/-- z_perp_ab, source line 99. -/
def zPerpAb {L B K D : ℕ} (z : Fin L → Fin B → Fin D → ℝ) (scale : Fin B → Fin D → ℝ)
    (locs : Fin B → Fin (K+1) → Fin D → ℝ) (l : Fin L) (b : Fin B) (k j : Fin (K+1))
    (i : Fin D) : ℝ :=
  zTilde z scale l b i - zLlAb z scale locs l b k j * muAb locs scale b k j i

/-- z_perp_ab_sqr, source line 100. -/
def zPerpAbSqr {L B K D : ℕ} (z : Fin L → Fin B → Fin D → ℝ) (scale : Fin B → Fin D → ℝ)
    (locs : Fin B → Fin (K+1) → Fin D → ℝ) (l : Fin L) (b : Fin B) (k j : Fin (K+1)) : ℝ :=
  ∑ i, zPerpAb z scale locs l b k j i ^ 2

/-- epsilons = z_tilde.unsqueeze(-2) - locs_tilde, source line 102. -/
def epsilons {L B K D : ℕ} (z : Fin L → Fin B → Fin D → ℝ) (scale : Fin B → Fin D → ℝ)
    (locs : Fin B → Fin (K+1) → Fin D → ℝ) (l : Fin L) (b : Fin B) (j : Fin (K+1))
    (i : Fin D) : ℝ :=
  zTilde z scale l b i - locsTilde locs scale b j i

/-- log_q_j = (-0.5 * epsilons.pow(2)).sum(-1), source lines 103-104. -/
def logQ {L B K D : ℕ} (z : Fin L → Fin B → Fin D → ℝ) (scale : Fin B → Fin D → ℝ)
    (locs : Fin B → Fin (K+1) → Fin D → ℝ) (l : Fin L) (b : Fin B) (j : Fin (K+1)) : ℝ :=
  ∑ i, -(0.5) * epsilons z scale locs l b j i ^ 2

/-- log_q_j_max = torch.max(log_q_j, -2, keepdim)[0], source line 105. -/
def logQmax {L B K D : ℕ} (z : Fin L → Fin B → Fin D → ℝ) (scale : Fin B → Fin D → ℝ)
    (locs : Fin B → Fin (K+1) → Fin D → ℝ) (l : Fin L) (b : Fin B) : ℝ :=
  Finset.univ.sup' Finset.univ_nonempty fun j => logQ z scale locs l b j

/-- q_j_prime = exp(log_q_j - log_q_j_max), source line 106. -/
def qPrime {L B K D : ℕ} (z : Fin L → Fin B → Fin D → ℝ) (scale : Fin B → Fin D → ℝ)
    (locs : Fin B → Fin (K+1) → Fin D → ℝ) (l : Fin L) (b : Fin B) (j : Fin (K+1)) : ℝ :=
  Real.exp (logQ z scale locs l b j - logQmax z scale locs l b)

/-- q_j = exp(log_q_j), source line 107: the argument of this exponential is
not shifted by the per-(l,b) maximum. -/
def qJ {L B K D : ℕ} (z : Fin L → Fin B → Fin D → ℝ) (scale : Fin B → Fin D → ℝ)
    (locs : Fin B → Fin (K+1) → Fin D → ℝ) (l : Fin L) (b : Fin B) (j : Fin (K+1)) : ℝ :=
  Real.exp (logQ z scale locs l b j)

/-- q_tot = (pis * q_j).sum over the component axis, source line 109. -/
def qTot {L B K D : ℕ} (z : Fin L → Fin B → Fin D → ℝ) (scale : Fin B → Fin D → ℝ)
    (locs : Fin B → Fin (K+1) → Fin D → ℝ) (pis : Fin B → Fin (K+1) → ℝ)
    (l : Fin L) (b : Fin B) : ℝ :=
  ∑ j, pis b j * qJ z scale locs l b j

/-- q_tot_prime = (pis * q_j_prime).sum over the component axis, line 110. -/
def qTotPrime {L B K D : ℕ} (z : Fin L → Fin B → Fin D → ℝ) (scale : Fin B → Fin D → ℝ)
    (locs : Fin B → Fin (K+1) → Fin D → ℝ) (pis : Fin B → Fin (K+1) → ℝ)
    (l : Fin L) (b : Fin B) : ℝ :=
  ∑ j, pis b j * qPrime z scale locs l b j

/-- mu_ab_sigma_g = ((scale * g) broadcast * mu_ab).sum(-1), source line 118. -/
def muAbSigmaG {L B K D : ℕ} (scale : Fin B → Fin D → ℝ)
    (locs : Fin B → Fin (K+1) → Fin D → ℝ) (g : Fin L → Fin B → Fin D → ℝ)
    (l : Fin L) (b : Fin B) (k j : Fin (K+1)) : ℝ :=
  ∑ i, scale b i * g l b i * muAb locs scale b k j i

/-- The pairwise entry of the logits_grad array after the erf difference
(source line 114) and the two in-place multiplications (source lines 115
and 119). -/
def logitsGradTerm {L B K D : ℕ} (z : Fin L → Fin B → Fin D → ℝ) (scale : Fin B → Fin D → ℝ)
    (locs : Fin B → Fin (K+1) → Fin D → ℝ) (pis : Fin B → Fin (K+1) → ℝ)
    (g : Fin L → Fin B → Fin D → ℝ) (l : Fin L) (b : Fin B) (k j : Fin (K+1)) : ℝ :=
  (erf ((zLlAb z scale locs l b k j - muLlAb locs scale b k j) / Real.sqrt 2)
      - erf ((zLlAb z scale locs l b k j + muLlBa locs scale b k j) / Real.sqrt 2))
    * Real.exp (-(0.5) * zPerpAbSqr z scale locs l b k j)
    * (-muAbSigmaG scale locs g l b k j * pis b j)

/-- grad_logits, source lines 120-121: pis * sum over the leading sample axes
of (sum over the second pair axis of the term) / q_tot, finally scaled
in place by sqrt(0.5 * pi). -/
def gradLogits {L B K D : ℕ} (z : Fin L → Fin B → Fin D → ℝ) (scale : Fin B → Fin D → ℝ)
    (locs : Fin B → Fin (K+1) → Fin D → ℝ) (pis : Fin B → Fin (K+1) → ℝ)
    (g : Fin L → Fin B → Fin D → ℝ) (b : Fin B) (k : Fin (K+1)) : ℝ :=
  (pis b k * ∑ l, (∑ j, logitsGradTerm z scale locs pis g l b k j) / qTot z scale locs pis l b)
    * Real.sqrt (0.5 * Real.pi)

/-- prefactor = pis * q_j_prime * g / q_tot_prime, source line 124. -/
def prefactor {L B K D : ℕ} (z : Fin L → Fin B → Fin D → ℝ) (scale : Fin B → Fin D → ℝ)
    (locs : Fin B → Fin (K+1) → Fin D → ℝ) (pis : Fin B → Fin (K+1) → ℝ)
    (g : Fin L → Fin B → Fin D → ℝ) (l : Fin L) (b : Fin B) (j : Fin (K+1)) (i : Fin D) : ℝ :=
  pis b j * qPrime z scale locs l b j * g l b i / qTotPrime z scale locs pis l b

/-- locs_grad = sum_leftmost(prefactor), source line 125. -/
def gradLocs {L B K D : ℕ} (z : Fin L → Fin B → Fin D → ℝ) (scale : Fin B → Fin D → ℝ)
    (locs : Fin B → Fin (K+1) → Fin D → ℝ) (pis : Fin B → Fin (K+1) → ℝ)
    (g : Fin L → Fin B → Fin D → ℝ) (b : Fin B) (j : Fin (K+1)) (i : Fin D) : ℝ :=
  ∑ l, prefactor z scale locs pis g l b j i

/-- scale_grad = sum_leftmost(prefactor * epsilons).sum(-2), source line 126:
sum over the leading sample axes, then over the component axis. -/
def gradScale {L B K D : ℕ} (z : Fin L → Fin B → Fin D → ℝ) (scale : Fin B → Fin D → ℝ)
    (locs : Fin B → Fin (K+1) → Fin D → ℝ) (pis : Fin B → Fin (K+1) → ℝ)
    (g : Fin L → Fin B → Fin D → ℝ) (b : Fin B) (i : Fin D) : ℝ :=
  ∑ j, ∑ l, prefactor z scale locs pis g l b j i * epsilons z scale locs l b j i

/- Definitions written from the words of claim C2 (and section 4.5 of the
   spec), to be compared with the source translation above. -/

/-- epsilon as claim C2 states it: z[l,b,:]/scale[b,:] - locs[b,j,:]/scale[b,:]. -/
def specEps {L B K D : ℕ} (z : Fin L → Fin B → Fin D → ℝ) (scale : Fin B → Fin D → ℝ)
    (locs : Fin B → Fin (K+1) → Fin D → ℝ) (l : Fin L) (b : Fin B) (j : Fin (K+1))
    (i : Fin D) : ℝ :=
  z l b i / scale b i - locs b j i / scale b i

/-- log_q as claim C2 states it: -0.5 * |epsilon[l,b,j,:]|^2. -/
def specLogQ {L B K D : ℕ} (z : Fin L → Fin B → Fin D → ℝ) (scale : Fin B → Fin D → ℝ)
    (locs : Fin B → Fin (K+1) → Fin D → ℝ) (l : Fin L) (b : Fin B) (j : Fin (K+1)) : ℝ :=
  -(0.5) * ∑ i, specEps z scale locs l b j i ^ 2

/-- The per-(l,b) maximum of the claimed log_q over the component axis. -/
def specLogQmax {L B K D : ℕ} (z : Fin L → Fin B → Fin D → ℝ) (scale : Fin B → Fin D → ℝ)
    (locs : Fin B → Fin (K+1) → Fin D → ℝ) (l : Fin L) (b : Fin B) : ℝ :=
  Finset.univ.sup' Finset.univ_nonempty fun j => specLogQ z scale locs l b j

/-- q' as claim C2 states it: exp(log_q - max_j log_q). -/
def specQPrime {L B K D : ℕ} (z : Fin L → Fin B → Fin D → ℝ) (scale : Fin B → Fin D → ℝ)
    (locs : Fin B → Fin (K+1) → Fin D → ℝ) (l : Fin L) (b : Fin B) (j : Fin (K+1)) : ℝ :=
  Real.exp (specLogQ z scale locs l b j - specLogQmax z scale locs l b)

/-- q_tot' as claim C2 states it: sum_j weights[b,j] * q'[l,b,j]. -/
def specQTotPrime {L B K D : ℕ} (z : Fin L → Fin B → Fin D → ℝ) (scale : Fin B → Fin D → ℝ)
    (locs : Fin B → Fin (K+1) → Fin D → ℝ) (weights : Fin B → Fin (K+1) → ℝ)
    (l : Fin L) (b : Fin B) : ℝ :=
  ∑ j, weights b j * specQPrime z scale locs l b j

/-- prefactor as claim C2 states it. -/
def specPrefactor {L B K D : ℕ} (z : Fin L → Fin B → Fin D → ℝ) (scale : Fin B → Fin D → ℝ)
    (locs : Fin B → Fin (K+1) → Fin D → ℝ) (weights : Fin B → Fin (K+1) → ℝ)
    (g : Fin L → Fin B → Fin D → ℝ) (l : Fin L) (b : Fin B) (j : Fin (K+1)) (i : Fin D) : ℝ :=
  weights b j * specQPrime z scale locs l b j * g l b i / specQTotPrime z scale locs weights l b

/-- grad_locs as claim C2 states it: sum over the leading sample axes of the
prefactor. -/
def specGradLocs {L B K D : ℕ} (z : Fin L → Fin B → Fin D → ℝ) (scale : Fin B → Fin D → ℝ)
    (locs : Fin B → Fin (K+1) → Fin D → ℝ) (weights : Fin B → Fin (K+1) → ℝ)
    (g : Fin L → Fin B → Fin D → ℝ) (b : Fin B) (j : Fin (K+1)) (i : Fin D) : ℝ :=
  ∑ l, specPrefactor z scale locs weights g l b j i

/-- grad_scale as claim C2 states it: sum over the leading sample axes and
the component axis of prefactor * epsilon. -/
def specGradScale {L B K D : ℕ} (z : Fin L → Fin B → Fin D → ℝ) (scale : Fin B → Fin D → ℝ)
    (locs : Fin B → Fin (K+1) → Fin D → ℝ) (weights : Fin B → Fin (K+1) → ℝ)
    (g : Fin L → Fin B → Fin D → ℝ) (b : Fin B) (i : Fin D) : ℝ :=
  ∑ l, ∑ j, specPrefactor z scale locs weights g l b j i * specEps z scale locs l b j i

theorem epsilons_eq_spec {L B K D : ℕ} (z : Fin L → Fin B → Fin D → ℝ)
    (scale : Fin B → Fin D → ℝ) (locs : Fin B → Fin (K+1) → Fin D → ℝ)
    (l : Fin L) (b : Fin B) (j : Fin (K+1)) (i : Fin D) :
    epsilons z scale locs l b j i = specEps z scale locs l b j i := rfl

theorem logQ_eq_spec {L B K D : ℕ} (z : Fin L → Fin B → Fin D → ℝ)
    (scale : Fin B → Fin D → ℝ) (locs : Fin B → Fin (K+1) → Fin D → ℝ)
    (l : Fin L) (b : Fin B) (j : Fin (K+1)) :
    logQ z scale locs l b j = specLogQ z scale locs l b j := by
  unfold logQ specLogQ
  rw [Finset.mul_sum]
  simp only [epsilons_eq_spec]

theorem logQmax_eq_spec {L B K D : ℕ} (z : Fin L → Fin B → Fin D → ℝ)
    (scale : Fin B → Fin D → ℝ) (locs : Fin B → Fin (K+1) → Fin D → ℝ)
    (l : Fin L) (b : Fin B) :
    logQmax z scale locs l b = specLogQmax z scale locs l b := by
  unfold logQmax specLogQmax
  simp only [logQ_eq_spec]

theorem qPrime_eq_spec {L B K D : ℕ} (z : Fin L → Fin B → Fin D → ℝ)
    (scale : Fin B → Fin D → ℝ) (locs : Fin B → Fin (K+1) → Fin D → ℝ)
    (l : Fin L) (b : Fin B) (j : Fin (K+1)) :
    qPrime z scale locs l b j = specQPrime z scale locs l b j := by
  unfold qPrime specQPrime
  rw [logQ_eq_spec, logQmax_eq_spec]

theorem qTotPrime_eq_spec {L B K D : ℕ} (z : Fin L → Fin B → Fin D → ℝ)
    (scale : Fin B → Fin D → ℝ) (locs : Fin B → Fin (K+1) → Fin D → ℝ)
    (pis : Fin B → Fin (K+1) → ℝ) (l : Fin L) (b : Fin B) :
    qTotPrime z scale locs pis l b = specQTotPrime z scale locs pis l b := by
  unfold qTotPrime specQTotPrime
  simp only [qPrime_eq_spec]

theorem prefactor_eq_spec {L B K D : ℕ} (z : Fin L → Fin B → Fin D → ℝ)
    (scale : Fin B → Fin D → ℝ) (locs : Fin B → Fin (K+1) → Fin D → ℝ)
    (pis : Fin B → Fin (K+1) → ℝ) (g : Fin L → Fin B → Fin D → ℝ)
    (l : Fin L) (b : Fin B) (j : Fin (K+1)) (i : Fin D) :
    prefactor z scale locs pis g l b j i = specPrefactor z scale locs pis g l b j i := by
  unfold prefactor specPrefactor
  rw [qPrime_eq_spec, qTotPrime_eq_spec]

/-- Claim C2: the backward pass returns exactly the claimed locs gradient
(the prefactor summed over the leading sample axes) and the claimed scale
gradient (prefactor * epsilon summed over the leading sample axes and the
component axis), with prefactor, q', log_q and q_tot' as the claim defines
them. -/
theorem C2_locs_scale_grad :
    (∀ (L B K D : ℕ) (z : Fin L → Fin B → Fin D → ℝ) (scale : Fin B → Fin D → ℝ)
        (locs : Fin B → Fin (K+1) → Fin D → ℝ) (pis : Fin B → Fin (K+1) → ℝ)
        (g : Fin L → Fin B → Fin D → ℝ) (b : Fin B) (j : Fin (K+1)) (i : Fin D),
        gradLocs z scale locs pis g b j i = specGradLocs z scale locs pis g b j i) ∧
    (∀ (L B K D : ℕ) (z : Fin L → Fin B → Fin D → ℝ) (scale : Fin B → Fin D → ℝ)
        (locs : Fin B → Fin (K+1) → Fin D → ℝ) (pis : Fin B → Fin (K+1) → ℝ)
        (g : Fin L → Fin B → Fin D → ℝ) (b : Fin B) (i : Fin D),
        gradScale z scale locs pis g b i = specGradScale z scale locs pis g b i) := by
  constructor
  · intro L B K D z scale locs pis g b j i
    unfold gradLocs specGradLocs
    simp only [prefactor_eq_spec]
  · intro L B K D z scale locs pis g b i
    unfold gradScale specGradScale
    rw [Finset.sum_comm]
    simp only [prefactor_eq_spec, epsilons_eq_spec]

/- Definitions written from the words of claim C1 (and the spec's section
   4.5).  The spec's mu, z_ll, z_perp_sqr and q_tot coincide formula for
   formula with the source's muAb, zLlAb, zPerpAbSqr and qTot above, so those
   are reused; the spec's mu_ll differs from the source and is defined here. -/

/-- mu_ll exactly as the spec defines it: mu_ll[p,q] = <locs~[q,:], mu[p,q,:]>,
the projection of the SECOND component's normalized mean onto the pair
direction.  (The source's broadcast computes <locs~[p,:], mu[p,q,:>] instead,
see muLlAb.) -/
def specMuLl {B K D : ℕ} (locs : Fin B → Fin (K+1) → Fin D → ℝ)
    (scale : Fin B → Fin D → ℝ) (b : Fin B) (p q : Fin (K+1)) : ℝ :=
  ∑ i, locsTilde locs scale b q i * muAb locs scale b p q i

/-- term[l,b,p,q] exactly as claim C1 states it. -/
def specTermC1 {L B K D : ℕ} (z : Fin L → Fin B → Fin D → ℝ) (scale : Fin B → Fin D → ℝ)
    (locs : Fin B → Fin (K+1) → Fin D → ℝ) (pis : Fin B → Fin (K+1) → ℝ)
    (g : Fin L → Fin B → Fin D → ℝ) (l : Fin L) (b : Fin B) (p q : Fin (K+1)) : ℝ :=
  (erf ((zLlAb z scale locs l b p q - specMuLl locs scale b p q) / Real.sqrt 2)
      - erf ((zLlAb z scale locs l b p q + specMuLl locs scale b q p) / Real.sqrt 2))
    * Real.exp (-(0.5) * zPerpAbSqr z scale locs l b p q)
    * (-(∑ i, scale b i * g l b i * muAb locs scale b p q i) * pis b q)

/-- grad_logits[b,p] exactly as claim C1 states it. -/
def claimGradLogits {L B K D : ℕ} (z : Fin L → Fin B → Fin D → ℝ) (scale : Fin B → Fin D → ℝ)
    (locs : Fin B → Fin (K+1) → Fin D → ℝ) (pis : Fin B → Fin (K+1) → ℝ)
    (g : Fin L → Fin B → Fin D → ℝ) (b : Fin B) (p : Fin (K+1)) : ℝ :=
  pis b p * Real.sqrt (Real.pi / 2)
    * ∑ l, ∑ q, specTermC1 z scale locs pis g l b p q / qTot z scale locs pis l b

/-- grad_logits in the claim's shape but with the source's mu_ll convention
(the amended claim C1). -/
def amendGradLogits {L B K D : ℕ} (z : Fin L → Fin B → Fin D → ℝ) (scale : Fin B → Fin D → ℝ)
    (locs : Fin B → Fin (K+1) → Fin D → ℝ) (pis : Fin B → Fin (K+1) → ℝ)
    (g : Fin L → Fin B → Fin D → ℝ) (b : Fin B) (p : Fin (K+1)) : ℝ :=
  pis b p * Real.sqrt (Real.pi / 2)
    * ∑ l, ∑ q, logitsGradTerm z scale locs pis g l b p q / qTot z scale locs pis l b

theorem muAbNorm_symm {B K D : ℕ} (locs : Fin B → Fin (K+1) → Fin D → ℝ)
    (scale : Fin B → Fin D → ℝ) (b : Fin B) (k j : Fin (K+1)) :
    muAbNorm locs scale b k j = muAbNorm locs scale b j k := by
  unfold muAbNorm
  congr 1
  refine Finset.sum_congr rfl fun i _ => ?_
  unfold muAbRaw
  ring

theorem muAb_antisymm {B K D : ℕ} (locs : Fin B → Fin (K+1) → Fin D → ℝ)
    (scale : Fin B → Fin D → ℝ) (b : Fin B) (k j : Fin (K+1)) (i : Fin D) :
    muAb locs scale b j k i = -muAb locs scale b k j i := by
  unfold muAb
  by_cases h : k = j
  · subst h
    simp
  · rw [if_neg (Ne.symm h), if_neg h, muAbNorm_symm locs scale b j k]
    rw [show muAbRaw locs scale b j k i = -muAbRaw locs scale b k j i by
      unfold muAbRaw; ring]
    rw [neg_div]

theorem specMuLl_fst {B K D : ℕ} (locs : Fin B → Fin (K+1) → Fin D → ℝ)
    (scale : Fin B → Fin D → ℝ) (b : Fin B) (p q : Fin (K+1)) :
    specMuLl locs scale b p q = -muLlBa locs scale b p q := by
  unfold specMuLl muLlBa muLlAb
  rw [← Finset.sum_neg_distrib]
  refine Finset.sum_congr rfl fun i _ => ?_
  rw [muAb_antisymm locs scale b q p i]
  ring

theorem specMuLl_snd {B K D : ℕ} (locs : Fin B → Fin (K+1) → Fin D → ℝ)
    (scale : Fin B → Fin D → ℝ) (b : Fin B) (p q : Fin (K+1)) :
    specMuLl locs scale b q p = -muLlAb locs scale b p q := by
  unfold specMuLl muLlAb
  rw [← Finset.sum_neg_distrib]
  refine Finset.sum_congr rfl fun i _ => ?_
  rw [muAb_antisymm locs scale b p q i]
  ring

/-- The claimed pairwise term is the exact negative of the term the source
computes: the spec's mu_ll convention swaps the two erf arguments. -/
theorem specTermC1_eq_neg {L B K D : ℕ} (z : Fin L → Fin B → Fin D → ℝ)
    (scale : Fin B → Fin D → ℝ) (locs : Fin B → Fin (K+1) → Fin D → ℝ)
    (pis : Fin B → Fin (K+1) → ℝ) (g : Fin L → Fin B → Fin D → ℝ)
    (l : Fin L) (b : Fin B) (p q : Fin (K+1)) :
    specTermC1 z scale locs pis g l b p q = -logitsGradTerm z scale locs pis g l b p q := by
  unfold specTermC1 logitsGradTerm muAbSigmaG
  rw [specMuLl_fst, specMuLl_snd, sub_neg_eq_add, ← sub_eq_add_neg]
  ring

theorem gradLogits_eq_amend {L B K D : ℕ} (z : Fin L → Fin B → Fin D → ℝ)
    (scale : Fin B → Fin D → ℝ) (locs : Fin B → Fin (K+1) → Fin D → ℝ)
    (pis : Fin B → Fin (K+1) → ℝ) (g : Fin L → Fin B → Fin D → ℝ)
    (b : Fin B) (p : Fin (K+1)) :
    gradLogits z scale locs pis g b p = amendGradLogits z scale locs pis g b p := by
  unfold gradLogits amendGradLogits
  rw [show (0.5 : ℝ) * Real.pi = Real.pi / 2 by ring]
  rw [show (∑ l, (∑ j, logitsGradTerm z scale locs pis g l b p j) / qTot z scale locs pis l b)
      = ∑ l, ∑ j, logitsGradTerm z scale locs pis g l b p j / qTot z scale locs pis l b from
    Finset.sum_congr rfl fun l _ => Finset.sum_div _ _ _]
  ring

theorem claimGradLogits_eq_neg {L B K D : ℕ} (z : Fin L → Fin B → Fin D → ℝ)
    (scale : Fin B → Fin D → ℝ) (locs : Fin B → Fin (K+1) → Fin D → ℝ)
    (pis : Fin B → Fin (K+1) → ℝ) (g : Fin L → Fin B → Fin D → ℝ)
    (b : Fin B) (p : Fin (K+1)) :
    claimGradLogits z scale locs pis g b p = -gradLogits z scale locs pis g b p := by
  rw [gradLogits_eq_amend]
  unfold claimGradLogits amendGradLogits
  simp only [specTermC1_eq_neg, neg_div, Finset.sum_neg_distrib, mul_neg]

/-- Claim C1, amended: the logits gradient returned by the backward pass is
weights[b,p] * sqrt(pi/2) times the sum over the leading sample axes and the
components q of term[l,b,p,q] / q_tot[l,b], where the term is as the claim
states it except that mu_ll[p,q] = <locs~[p,:], mu[p,q,:]> (the projection of
the FIRST component's normalized mean, which is what the source's broadcast
computes), equivalently with the claim's two erf arguments exchanged. -/
theorem C1_logits_grad_amended :
    ∀ (L B K D : ℕ) (z : Fin L → Fin B → Fin D → ℝ) (scale : Fin B → Fin D → ℝ)
      (locs : Fin B → Fin (K+1) → Fin D → ℝ) (pis : Fin B → Fin (K+1) → ℝ)
      (g : Fin L → Fin B → Fin D → ℝ) (b : Fin B) (p : Fin (K+1)),
      gradLogits z scale locs pis g b p = amendGradLogits z scale locs pis g b p :=
  fun _ _ _ _ z scale locs pis g b p => gradLogits_eq_amend z scale locs pis g b p

/- Concrete context refuting claim C1 as stated: one sample, one batch
   element, two components with normalized means 0 and 2 in one dimension,
   unit scale, equal weights, sample z = 0, upstream gradient 1. -/

def c1z : Fin 1 → Fin 1 → Fin 1 → ℝ := fun _ _ _ => 0

def c1scale : Fin 1 → Fin 1 → ℝ := fun _ _ => 1

def c1locs : Fin 1 → Fin 2 → Fin 1 → ℝ := fun _ k _ => if k = 0 then 0 else 2

def c1pis : Fin 1 → Fin 2 → ℝ := fun _ _ => 1/2

def c1g : Fin 1 → Fin 1 → Fin 1 → ℝ := fun _ _ _ => 1

theorem c1_sqrt_four : Real.sqrt 4 = 2 := by
  rw [show (4:ℝ) = 2 ^ 2 by norm_num, Real.sqrt_sq (by norm_num : (0:ℝ) ≤ 2)]

theorem c1_locsTilde (j : Fin 2) :
    locsTilde c1locs c1scale 0 j 0 = if j = 0 then 0 else 2 := by
  simp [locsTilde, c1locs, c1scale]

theorem c1_zTilde : zTilde c1z c1scale 0 0 0 = 0 := by
  simp [zTilde, c1z, c1scale]

theorem c1_muAb01 : muAb c1locs c1scale 0 0 1 0 = -1 := by
  unfold muAb
  rw [if_neg (by decide)]
  unfold muAbNorm muAbRaw
  rw [Fin.sum_univ_one, c1_locsTilde 0, c1_locsTilde 1]
  norm_num [c1_sqrt_four]

theorem c1_muAb10 : muAb c1locs c1scale 0 1 0 0 = 1 := by
  unfold muAb
  rw [if_neg (by decide)]
  unfold muAbNorm muAbRaw
  rw [Fin.sum_univ_one, c1_locsTilde 0, c1_locsTilde 1]
  norm_num [c1_sqrt_four]

theorem c1_muLl01 : muLlAb c1locs c1scale 0 0 1 = 0 := by
  unfold muLlAb
  rw [Fin.sum_univ_one, c1_locsTilde 0, c1_muAb01]
  norm_num

theorem c1_muLl10 : muLlAb c1locs c1scale 0 1 0 = 2 := by
  unfold muLlAb
  rw [Fin.sum_univ_one, c1_locsTilde 1, c1_muAb10]
  norm_num

theorem c1_zLl01 : zLlAb c1z c1scale c1locs 0 0 0 1 = 0 := by
  unfold zLlAb
  rw [Fin.sum_univ_one, c1_zTilde]
  norm_num

theorem c1_zPerpSqr01 : zPerpAbSqr c1z c1scale c1locs 0 0 0 1 = 0 := by
  unfold zPerpAbSqr zPerpAb
  rw [Fin.sum_univ_one, c1_zTilde, c1_zLl01]
  norm_num

theorem c1_sigma01 : muAbSigmaG c1scale c1locs c1g 0 0 0 1 = -1 := by
  unfold muAbSigmaG
  rw [Fin.sum_univ_one, c1_muAb01]
  norm_num [c1scale, c1g]

theorem c1_term00 : logitsGradTerm c1z c1scale c1locs c1pis c1g 0 0 0 0 = 0 := by
  unfold logitsGradTerm muAbSigmaG
  rw [Fin.sum_univ_one]
  rw [show muAb c1locs c1scale 0 0 0 0 = 0 from if_pos rfl]
  norm_num

theorem c1_term01 : logitsGradTerm c1z c1scale c1locs c1pis c1g 0 0 0 1
    = -(erf (2 / Real.sqrt 2)) * (1/2) := by
  unfold logitsGradTerm muLlBa
  rw [c1_zLl01, c1_muLl01, c1_muLl10, c1_zPerpSqr01, c1_sigma01]
  norm_num [erf_zero, c1pis]

theorem c1_logQ (j : Fin 2) :
    logQ c1z c1scale c1locs 0 0 j = if j = 0 then 0 else -2 := by
  unfold logQ epsilons
  rw [Fin.sum_univ_one, c1_zTilde, c1_locsTilde j]
  fin_cases j <;> norm_num

theorem c1_qTot : qTot c1z c1scale c1locs c1pis 0 0 = 1/2 + Real.exp (-2) * (1/2) := by
  unfold qTot qJ
  rw [Fin.sum_univ_two, c1_logQ 0, c1_logQ 1]
  norm_num [c1pis, Real.exp_zero]
  ring

theorem c1_gradLogits_ne :
    gradLogits c1z c1scale c1locs c1pis c1g 0 0 ≠ 0 := by
  unfold gradLogits
  rw [Fin.sum_univ_one, Fin.sum_univ_two, c1_term00, c1_term01, c1_qTot]
  have hQ : (0:ℝ) < 1/2 + Real.exp (-2) * (1/2) := by positivity
  have hE : 0 < erf (2 / Real.sqrt 2) :=
    erf_pos (by positivity)
  have hs : (0:ℝ) < Real.sqrt (0.5 * Real.pi) :=
    Real.sqrt_pos.mpr (by positivity)
  refine mul_ne_zero (mul_ne_zero (by norm_num [c1pis]) ?_) (ne_of_gt hs)
  rw [zero_add]
  exact div_ne_zero (by nlinarith) (ne_of_gt hQ)

/-- Claim C1 is false as stated: with the spec's mu_ll convention the claimed
formula is the exact negative of what the backward pass returns, and on the
concrete context above (components at 0 and 2, sample at 0) the value is
nonzero, so the two differ. -/
theorem C1_counterexample :
    claimGradLogits c1z c1scale c1locs c1pis c1g 0 0
      ≠ gradLogits c1z c1scale c1locs c1pis c1g 0 0 := by
  intro heq
  rw [claimGradLogits_eq_neg] at heq
  exact c1_gradLogits_ne (by linarith)

/- Claim C3: coincident mean rows.  The failing input below has two distinct
   components with identical rows. -/

def c3locs : Fin 1 → Fin 2 → Fin 1 → ℝ := fun _ _ _ => 0

def c3scale : Fin 1 → Fin 1 → ℝ := fun _ _ => 1

/-- Claim C3's failing input evaluated on the source's computation: for the
distinct pair (0,1) with identical mean rows, the pair normalizer mu_ab_norm
is 0 and the numerator mu_ab entries are 0 as well, so the in-place division
mu_ab /= mu_ab_norm on source line 93 computes 0/0 -- NaN in the IEEE
arithmetic the code runs under -- and the diagonal zeroing on line 95 does
not touch the off-diagonal pair; the NaN propagates through erf, exp and the
sum over components into grad_logits, contradicting the claimed finite
zero-contribution gradient. -/
theorem C3_zero_divisor :
    ((0 : Fin 2) ≠ 1) ∧ c3locs 0 0 = c3locs 0 1 ∧
    muAbNorm c3locs c3scale 0 0 1 = 0 ∧ (∀ i, muAbRaw c3locs c3scale 0 0 1 i = 0) := by
  refine ⟨by decide, rfl, ?_, fun i => ?_⟩
  · unfold muAbNorm muAbRaw locsTilde
    simp [c3locs]
  · unfold muAbRaw locsTilde
    simp [c3locs]

/- Claim C4: the arguments of the three exponentials of the backward pass
   (source lines 106, 107 and 115), as separate definitions naming each
   torch.exp call site. -/

/-- Argument of the exponential in q_j_prime, source line 106. -/
def qPrimeArg {L B K D : ℕ} (z : Fin L → Fin B → Fin D → ℝ) (scale : Fin B → Fin D → ℝ)
    (locs : Fin B → Fin (K+1) → Fin D → ℝ) (l : Fin L) (b : Fin B) (j : Fin (K+1)) : ℝ :=
  logQ z scale locs l b j - logQmax z scale locs l b

/-- Argument of the exponential in q_j, source line 107. -/
def qJArg {L B K D : ℕ} (z : Fin L → Fin B → Fin D → ℝ) (scale : Fin B → Fin D → ℝ)
    (locs : Fin B → Fin (K+1) → Fin D → ℝ) (l : Fin L) (b : Fin B) (j : Fin (K+1)) : ℝ :=
  logQ z scale locs l b j

/-- Argument of the exponential factor of the logits gradient, source
line 115. -/
def perpExpArg {L B K D : ℕ} (z : Fin L → Fin B → Fin D → ℝ) (scale : Fin B → Fin D → ℝ)
    (locs : Fin B → Fin (K+1) → Fin D → ℝ) (l : Fin L) (b : Fin B) (k j : Fin (K+1)) : ℝ :=
  -(0.5) * zPerpAbSqr z scale locs l b k j

/- Concrete context refuting claim C4: one component, sample 1, mean 0, unit
   scale, so log_q = -1/2 and its per-(l,b) maximum is -1/2, not 0. -/

def c4z : Fin 1 → Fin 1 → Fin 1 → ℝ := fun _ _ _ => 1

def c4scale : Fin 1 → Fin 1 → ℝ := fun _ _ => 1

def c4locs : Fin 1 → Fin 1 → Fin 1 → ℝ := fun _ _ _ => 0

theorem c4_logQ : logQ c4z c4scale c4locs 0 0 0 = -(0.5) := by
  unfold logQ epsilons zTilde locsTilde
  rw [Fin.sum_univ_one]
  norm_num [c4z, c4scale, c4locs]

theorem c4_logQmax : logQmax c4z c4scale c4locs 0 0 = -(0.5) := by
  unfold logQmax
  refine le_antisymm (Finset.sup'_le _ _ fun j _ => ?_) ?_
  · rw [Fin.eq_zero j, c4_logQ]
  · have h := Finset.le_sup' (fun j => logQ c4z c4scale c4locs 0 0 j)
      (Finset.mem_univ (0 : Fin 1))
    rw [c4_logQ] at h
    exact h

/-- Claim C4 is false as stated: the exponential computing q_j on source
line 107 is not evaluated relative to the per-(l,b) maximum of the log
responsibilities -- on the concrete context its value exp(log_q) differs
from exp(log_q - max_j log_q). -/
theorem C4_counterexample :
    qJ c4z c4scale c4locs 0 0 0
      ≠ Real.exp (logQ c4z c4scale c4locs 0 0 0 - logQmax c4z c4scale c4locs 0 0) := by
  unfold qJ
  rw [c4_logQ, c4_logQmax, sub_self]
  rw [Real.exp_zero]
  have h : Real.exp (-(0.5)) < 1 := by
    rw [show (1:ℝ) = Real.exp 0 from (Real.exp_zero).symm]
    exact Real.exp_lt_exp.mpr (by norm_num)
  exact ne_of_lt h

/-- Claim C4, amended: only the responsibility exponential q' is computed
relative to the per-(l,b) maximum (its argument is log_q - max_j log_q); the
raw responsibility q = exp(log_q) feeding q_tot, and the perpendicular
factor exp(-0.5 * z_perp_sqr), are not max-shifted -- but all three
arguments are always nonpositive, so no exponential in the backward pass
receives a positive argument and none can overflow. -/
theorem C4_exp_args_amended :
    ∀ (L B K D : ℕ) (z : Fin L → Fin B → Fin D → ℝ) (scale : Fin B → Fin D → ℝ)
      (locs : Fin B → Fin (K+1) → Fin D → ℝ) (l : Fin L) (b : Fin B) (j k : Fin (K+1)),
      qPrime z scale locs l b j = Real.exp (qPrimeArg z scale locs l b j) ∧
      qJ z scale locs l b j = Real.exp (qJArg z scale locs l b j) ∧
      qPrimeArg z scale locs l b j ≤ 0 ∧
      qJArg z scale locs l b j ≤ 0 ∧
      perpExpArg z scale locs l b k j ≤ 0 := by
  intro L B K D z scale locs l b j k
  have hlogQ : qJArg z scale locs l b j ≤ 0 := by
    unfold qJArg logQ
    refine Finset.sum_nonpos fun i _ => ?_
    nlinarith [sq_nonneg (epsilons z scale locs l b j i)]
  refine ⟨rfl, rfl, ?_, hlogQ, ?_⟩
  · unfold qPrimeArg logQmax
    exact sub_nonpos.mpr (Finset.le_sup' _ (Finset.mem_univ j))
  · unfold perpExpArg
    have h : 0 ≤ zPerpAbSqr z scale locs l b k j :=
      Finset.sum_nonneg fun i _ => sq_nonneg _
    nlinarith

/- Claim C9: purity of the backward pass.  The backward is replayed as a
   sequence of writes on an explicit store whose input slots are the saved
   tensors and the upstream gradient and whose scratch slots are the only
   arrays the source mutates in place: mu_ab (lines 93 and 95) and the two
   incarnations of logits_grad (lines 115, 119 and 121).  The scratch slots
   start with arbitrary junk, standing for freshly allocated memory. -/

/-- mu_ll_ab (source line 97) computed from a given mu array. -/
def muLlOf {B K D : ℕ} (locs : Fin B → Fin (K+1) → Fin D → ℝ) (scale : Fin B → Fin D → ℝ)
    (mu : Fin B → Fin (K+1) → Fin (K+1) → Fin D → ℝ) (b : Fin B) (k j : Fin (K+1)) : ℝ :=
  ∑ i, locsTilde locs scale b k i * mu b k j i

/-- z_ll_ab (source line 98) computed from a given mu array. -/
def zLlOf {L B K D : ℕ} (z : Fin L → Fin B → Fin D → ℝ) (scale : Fin B → Fin D → ℝ)
    (mu : Fin B → Fin (K+1) → Fin (K+1) → Fin D → ℝ) (l : Fin L) (b : Fin B)
    (k j : Fin (K+1)) : ℝ :=
  ∑ i, zTilde z scale l b i * mu b k j i

/-- z_perp_ab_sqr (source lines 99-100) computed from a given mu array. -/
def zPerpSqrOf {L B K D : ℕ} (z : Fin L → Fin B → Fin D → ℝ) (scale : Fin B → Fin D → ℝ)
    (mu : Fin B → Fin (K+1) → Fin (K+1) → Fin D → ℝ) (l : Fin L) (b : Fin B)
    (k j : Fin (K+1)) : ℝ :=
  ∑ i, (zTilde z scale l b i - zLlOf z scale mu l b k j * mu b k j i) ^ 2

/-- mu_ab_sigma_g (source line 118) computed from a given mu array. -/
def sigmaGOf {L B K D : ℕ} (scale : Fin B → Fin D → ℝ) (g : Fin L → Fin B → Fin D → ℝ)
    (mu : Fin B → Fin (K+1) → Fin (K+1) → Fin D → ℝ) (l : Fin L) (b : Fin B)
    (k j : Fin (K+1)) : ℝ :=
  ∑ i, scale b i * g l b i * mu b k j i

/-- The store of the backward pass: the six input arrays (the five saved
tensors and grad_output) followed by the three scratch arrays the source
updates in place. -/
structure BwStore (L B K D : ℕ) where
  z : Fin L → Fin B → Fin D → ℝ
  scale : Fin B → Fin D → ℝ
  locs : Fin B → Fin (K+1) → Fin D → ℝ
  logits : Fin B → Fin (K+1) → ℝ
  pis : Fin B → Fin (K+1) → ℝ
  g : Fin L → Fin B → Fin D → ℝ
  muAbBuf : Fin B → Fin (K+1) → Fin (K+1) → Fin D → ℝ
  lgBuf : Fin L → Fin B → Fin (K+1) → Fin (K+1) → ℝ
  lgBuf2 : Fin B → Fin (K+1) → ℝ

/-- Source line 91: mu_ab is allocated with the pairwise mean differences. -/
def bwStep91 {L B K D : ℕ} (s : BwStore L B K D) : BwStore L B K D :=
  ⟨s.z, s.scale, s.locs, s.logits, s.pis, s.g,
   fun b k j i => muAbRaw s.locs s.scale b k j i, s.lgBuf, s.lgBuf2⟩

/-- Source lines 92-93: mu_ab is divided in place by its pair norms. -/
def bwStep93 {L B K D : ℕ} (s : BwStore L B K D) : BwStore L B K D :=
  ⟨s.z, s.scale, s.locs, s.logits, s.pis, s.g,
   fun b k j i => s.muAbBuf b k j i / Real.sqrt (∑ i2, s.muAbBuf b k j i2 ^ 2),
   s.lgBuf, s.lgBuf2⟩

/-- Source lines 94-95: the diagonal of mu_ab is overwritten with zeros. -/
def bwStep95 {L B K D : ℕ} (s : BwStore L B K D) : BwStore L B K D :=
  ⟨s.z, s.scale, s.locs, s.logits, s.pis, s.g,
   fun b k j i => if k = j then 0 else s.muAbBuf b k j i, s.lgBuf, s.lgBuf2⟩

/-- Source lines 113-114: logits_grad is allocated with the erf difference. -/
def bwStep114 {L B K D : ℕ} (s : BwStore L B K D) : BwStore L B K D :=
  ⟨s.z, s.scale, s.locs, s.logits, s.pis, s.g, s.muAbBuf,
   fun l b k j =>
     erf ((zLlOf s.z s.scale s.muAbBuf l b k j - muLlOf s.locs s.scale s.muAbBuf b k j)
         / Real.sqrt 2)
       - erf ((zLlOf s.z s.scale s.muAbBuf l b k j + muLlOf s.locs s.scale s.muAbBuf b j k)
         / Real.sqrt 2),
   s.lgBuf2⟩

/-- Source line 115: logits_grad is multiplied in place by the perpendicular
Gaussian factor. -/
def bwStep115 {L B K D : ℕ} (s : BwStore L B K D) : BwStore L B K D :=
  ⟨s.z, s.scale, s.locs, s.logits, s.pis, s.g, s.muAbBuf,
   fun l b k j => s.lgBuf l b k j * Real.exp (-(0.5) * zPerpSqrOf s.z s.scale s.muAbBuf l b k j),
   s.lgBuf2⟩

/-- Source lines 118-119: logits_grad is multiplied in place by
-mu_ab_sigma_g * pis. -/
def bwStep119 {L B K D : ℕ} (s : BwStore L B K D) : BwStore L B K D :=
  ⟨s.z, s.scale, s.locs, s.logits, s.pis, s.g, s.muAbBuf,
   fun l b k j => s.lgBuf l b k j * (-sigmaGOf s.scale s.g s.muAbBuf l b k j * s.pis b j),
   s.lgBuf2⟩

/-- Source line 120: a fresh (B, K) logits_grad is allocated from the pair
sums divided by q_tot. -/
def bwStep120 {L B K D : ℕ} (s : BwStore L B K D) : BwStore L B K D :=
  ⟨s.z, s.scale, s.locs, s.logits, s.pis, s.g, s.muAbBuf, s.lgBuf,
   fun b k => s.pis b k * ∑ l, (∑ j, s.lgBuf l b k j) / qTot s.z s.scale s.locs s.pis l b⟩

/-- Source line 121: the final in-place scaling by sqrt(0.5 * pi). -/
def bwStep121 {L B K D : ℕ} (s : BwStore L B K D) : BwStore L B K D :=
  ⟨s.z, s.scale, s.locs, s.logits, s.pis, s.g, s.muAbBuf, s.lgBuf,
   fun b k => s.lgBuf2 b k * Real.sqrt (0.5 * Real.pi)⟩

/-- The backward pass replayed statement by statement on the store. -/
def bwRun {L B K D : ℕ} (s : BwStore L B K D) : BwStore L B K D :=
  bwStep121 (bwStep120 (bwStep119 (bwStep115 (bwStep114 (bwStep95 (bwStep93 (bwStep91 s)))))))

/-- The gradient triple (locs_grad, scale_grad, logits_grad) the backward
pass returns (source line 128): the first two are pure reductions of the
prefactor (lines 124-126), the third is the final content of the logits
buffer. -/
def bwGrads {L B K D : ℕ} (s : BwStore L B K D) :
    (Fin B → Fin (K+1) → Fin D → ℝ) × (Fin B → Fin D → ℝ) × (Fin B → Fin (K+1) → ℝ) :=
  (fun b j i => gradLocs s.z s.scale s.locs s.pis s.g b j i,
   fun b i => gradScale s.z s.scale s.locs s.pis s.g b i,
   fun b k => (bwRun s).lgBuf2 b k)

theorem bwRun_muAbBuf {L B K D : ℕ} (s : BwStore L B K D) :
    (bwRun s).muAbBuf = fun b k j i => muAb s.locs s.scale b k j i := by
  funext b k j i
  simp only [bwRun, bwStep121, bwStep120, bwStep119, bwStep115, bwStep114, bwStep95,
    bwStep93, bwStep91]
  unfold muAb muAbNorm
  rfl

theorem bwRun_lgBuf {L B K D : ℕ} (s : BwStore L B K D) :
    (bwRun s).lgBuf = fun l b k j => logitsGradTerm s.z s.scale s.locs s.pis s.g l b k j := by
  funext l b k j
  simp only [bwRun, bwStep121, bwStep120, bwStep119, bwStep115, bwStep114, bwStep95,
    bwStep93, bwStep91]
  unfold logitsGradTerm zLlAb muLlAb muLlBa zPerpAbSqr zPerpAb muAbSigmaG
  unfold zLlOf muLlOf zPerpSqrOf sigmaGOf muAb muAbNorm
  rfl

theorem bwRun_lgBuf2 {L B K D : ℕ} (s : BwStore L B K D) :
    (bwRun s).lgBuf2 = fun b k => gradLogits s.z s.scale s.locs s.pis s.g b k := by
  funext b k
  simp only [bwRun, bwStep121, bwStep120, bwStep119, bwStep115, bwStep114, bwStep95,
    bwStep93, bwStep91]
  unfold gradLogits logitsGradTerm zLlAb muLlAb muLlBa zPerpAbSqr zPerpAb muAbSigmaG
  unfold zLlOf muLlOf zPerpSqrOf sigmaGOf muAb muAbNorm
  rfl

theorem bwGrads_eq {L B K D : ℕ} (s : BwStore L B K D) :
    bwGrads s = (fun b j i => gradLocs s.z s.scale s.locs s.pis s.g b j i,
      fun b i => gradScale s.z s.scale s.locs s.pis s.g b i,
      fun b k => gradLogits s.z s.scale s.locs s.pis s.g b k) := by
  unfold bwGrads
  rw [bwRun_lgBuf2]

theorem bwRun_frame {L B K D : ℕ} (s : BwStore L B K D) :
    (bwRun s).z = s.z ∧ (bwRun s).scale = s.scale ∧ (bwRun s).locs = s.locs ∧
    (bwRun s).logits = s.logits ∧ (bwRun s).pis = s.pis ∧ (bwRun s).g = s.g := by
  refine ⟨?_, ?_, ?_, ?_, ?_, ?_⟩ <;>
    simp only [bwRun, bwStep121, bwStep120, bwStep119, bwStep115, bwStep114, bwStep95,
      bwStep93, bwStep91]

/-- Claim C9: the backward pass never writes to the saved tensors or the
upstream gradient (the in-place updates touch only the freshly allocated
scratch arrays, whose initial junk contents the result does not depend on),
and identical inputs produce identical gradients. -/
theorem C9_backward_pure :
    ∀ (L B K D : ℕ) (s : BwStore L B K D),
      ((bwRun s).z = s.z ∧ (bwRun s).scale = s.scale ∧ (bwRun s).locs = s.locs ∧
        (bwRun s).logits = s.logits ∧ (bwRun s).pis = s.pis ∧ (bwRun s).g = s.g) ∧
      bwGrads s = (fun b j i => gradLocs s.z s.scale s.locs s.pis s.g b j i,
        fun b i => gradScale s.z s.scale s.locs s.pis s.g b i,
        fun b k => gradLogits s.z s.scale s.locs s.pis s.g b k) ∧
      (∀ s2 : BwStore L B K D, s2.z = s.z → s2.scale = s.scale → s2.locs = s.locs →
        s2.logits = s.logits → s2.pis = s.pis → s2.g = s.g → bwGrads s2 = bwGrads s) := by
  intro L B K D s
  refine ⟨bwRun_frame s, bwGrads_eq s, ?_⟩
  intro s2 hz hscale hlocs hlogits hpis hg
  rw [bwGrads_eq s2, bwGrads_eq s, hz, hscale, hlocs, hpis, hg]

/-- Two concrete stores with identical inputs but different scratch
contents, for the witness of claim C9. -/
def c9storeA : BwStore 1 1 0 1 :=
  ⟨c4z, c4scale, c4locs, fun _ _ => 0, fun _ _ => 1, c4z,
   fun _ _ _ _ => 0, fun _ _ _ _ => 0, fun _ _ => 0⟩

def c9storeB : BwStore 1 1 0 1 :=
  ⟨c4z, c4scale, c4locs, fun _ _ => 0, fun _ _ => 1, c4z,
   fun _ _ _ _ => 37, fun _ _ _ _ => -5, fun _ _ => 11⟩

/-- Witness for claim C9: the two stores above agree on every input slot and
differ in the scratch slots, and the gradients coincide. -/
theorem C9_backward_pure_witness : bwGrads c9storeB = bwGrads c9storeA :=
  (C9_backward_pure 1 1 0 1 c9storeA).2.2 c9storeB rfl rfl rfl rfl rfl rfl

end

end MixSharedCov
